import Mathlib

/-!
Shallow embedding of the document-consolidation engine of this repository,
`createSinglePdfFromFiles` in `src/utils/gemini_api.js` (lines 137-230),
together with the Node.js path helpers it calls (`path.extname`,
`path.dirname`, `String.prototype.toLowerCase`) and an abstract model of the
pdf-lib decoders (`embedPng`, `embedJpg`, `PDFDocument.load`) and of the
filesystem (`fs.existsSync`, `fs.mkdirSync { recursive: true }`,
`fs.writeFileSync`).  Machine-independent data (byte buffers, pixel
dimensions) is modelled with `Nat`.
-/

namespace PdfMerge

/-- Models a JavaScript value observed only through `typeof v === 'string'`:
either an actual string or anything else (`undefined`, a number, ...). -/
inductive JsVal where
  | str (s : String) : JsVal
  | nonString : JsVal
  deriving DecidableEq

/-- Models one element of the `files` array: an object with `fileName` and
`fileData` properties, each an arbitrary JavaScript value.  A missing
property reads as `undefined`, i.e. `JsVal.nonString`. -/
structure FileEntry where
  fileName : JsVal
  fileData : JsVal
  deriving DecidableEq

/-- Models the raw `files` argument: either not an array at all, or an array
whose elements may be `null`/`undefined` (`none`) or objects (`some`). -/
inductive RawInput where
  | notArray : RawInput
  | arr (files : List (Option FileEntry)) : RawInput
  deriving DecidableEq

/-- Models the rectangle passed to `page.drawImage`: origin `(x, y)` and the
drawn width and height. -/
structure DrawRect where
  x : Nat
  y : Nat
  w : Nat
  h : Nat
  deriving DecidableEq

/-- Content of one page of the output document: either a raster image drawn
onto a fresh page (recording the index of the source file and the draw
rectangle), or a page copied from a source PDF (recording the index of the
source file and the page's index inside that source PDF). -/
inductive PageContent where
  | embeddedImage (srcFile : Nat) (draw : DrawRect) : PageContent
  | copiedPage (srcFile : Nat) (srcPage : Nat) : PageContent
  deriving DecidableEq

/-- One page of the output document, as produced by `mainPdfDoc.addPage`. -/
structure Page where
  width : Nat
  height : Nat
  content : PageContent
  deriving DecidableEq

/-- Index of the input-file entry a page originates from. -/
def Page.srcIdx : Page → Nat
  | ⟨_, _, .embeddedImage i _⟩ => i
  | ⟨_, _, .copiedPage i _⟩ => i

/-- Abstract model of the external decoding libraries used by
`createSinglePdfFromFiles`:
* `b64decode` models `Buffer.from(s, 'base64')` (total: Node decodes
  leniently and never throws on a string input);
* `embedPng`/`embedJpg` model `mainPdfDoc.embedPng`/`embedJpg`, returning
  the embedded image's native pixel `width` and `height`, or `none` when the
  bytes fail to decode (the library throws);
* `loadPdf` models `PDFDocument.load` followed by `getPageIndices` and
  `copyPages`, returning the source document's pages as a list of
  `(width, height)` dimensions in file order, or `none` when the bytes fail
  to open as a PDF (the library throws);
* `save` models `mainPdfDoc.save()`, serializing a page list to bytes. -/
structure Env where
  b64decode : String → List Nat
  embedPng : List Nat → Option (Nat × Nat)
  embedJpg : List Nat → Option (Nat × Nat)
  loadPdf : List Nat → Option (List (Nat × Nat))
  save : List Page → List Nat

/-- Models `String.prototype.toLowerCase` on ASCII strings (the only
strings compared against by the code: '.png', '.jpg', '.jpeg', '.pdf'). -/
def jsToLower (s : String) : String :=
  ⟨s.data.map Char.toLower⟩

/-- Drops every trailing '/' of a character list. -/
def stripTrailingSlashes (l : List Char) : List Char :=
  (l.reverse.dropWhile (fun c => c == '/')).reverse

/-- The part of a character list after its last '/'. -/
def afterLastSlash (l : List Char) : List Char :=
  (l.reverse.takeWhile (fun c => c != '/')).reverse

/-- Extension of a basename, following Node's `path.extname` on the part
after the last slash: the suffix from the last '.', except that a basename
with no '.', a basename whose only leading character is the last '.', and
the special basename ".." have no extension. -/
def extnameCore (b : List Char) : List Char :=
  let rev := b.reverse
  let tl := rev.takeWhile (fun c => c != '.')
  match rev.drop tl.length with
  | [] => []
  | _ :: pre =>
    if pre = [] then []
    else if b = ['.', '.'] then []
    else '.' :: tl.reverse

/-- Models Node's `path.extname` (posix): the extension of the basename of
the path, trailing slashes ignored. -/
def extname (s : String) : String :=
  ⟨extnameCore (afterLastSlash (stripTrailingSlashes s.data))⟩

/-- Models Node's `path.dirname` (posix). -/
def dirname (p : String) : String :=
  match p.data with
  | [] => "."
  | l =>
    let hasRoot := l.head? = some '/'
    let t := stripTrailingSlashes l
    if t = [] then (if hasRoot then "/" else ".")
    else
      let r := (t.reverse.takeWhile (fun c => c != '/')).length
      if r = t.length then (if hasRoot then "/" else ".")
      else
        let e := t.length - 1 - r
        if e = 0 then (if hasRoot then "/" else ".")
        else if hasRoot ∧ e = 1 then "//"
        else ⟨t.take e⟩

/-- Outcome of one iteration of the per-file loop (lines 149-206):
* `invalidObject`: the entry failed the structural validation at line 153
  (`!file || typeof file.fileName !== 'string' || typeof file.fileData !==
  'string'`) and was skipped with a warning;
* `unsupportedSkip`: the extension matched none of '.png', '.jpg', '.jpeg',
  '.pdf' and the file was skipped with a warning (line 197);
* `errorSkip`: a strategy threw (image or PDF bytes failed to decode); the
  `catch` at line 200 logged the error and skipped the file;
* `processed pages`: the pages appended to the output document for this
  entry (one page for a raster image; one per source page for a PDF, which
  may be zero for a zero-page source PDF). -/
inductive FileOutcome where
  | invalidObject : FileOutcome
  | unsupportedSkip : FileOutcome
  | errorSkip : FileOutcome
  | processed (pages : List Page) : FileOutcome
  deriving DecidableEq

/-- Pages an outcome contributes to the output document. -/
def outcomePages : FileOutcome → List Page
  | .processed pages => pages
  | _ => []

/-- One iteration of the loop body of `createSinglePdfFromFiles`
(lines 149-206) on the file at index `i`:  validate the entry, derive the
lower-cased extension, base64-decode the payload, then dispatch on the
extension: '.png'/' .jpg'/'.jpeg' embed the image and add one page of the
image's native dimensions with the image drawn at (0,0) at full size;
'.pdf' loads the source document and appends a copy of each of its pages in
original order; any other extension is skipped; a decoder failure is the
thrown error absorbed by the per-file `catch`. -/
def processFile (env : Env) (i : Nat) (file : Option FileEntry) : FileOutcome :=
  match file with
  | none => .invalidObject
  | some f =>
    match f.fileName, f.fileData with
    | .str fileName, .str base64Data =>
      let ext := jsToLower (extname fileName)
      let fileBuffer := env.b64decode base64Data
      if ext = ".png" then
        match env.embedPng fileBuffer with
        | some wh => .processed [⟨wh.1, wh.2, .embeddedImage i ⟨0, 0, wh.1, wh.2⟩⟩]
        | none => .errorSkip
      else if ext = ".jpg" ∨ ext = ".jpeg" then
        match env.embedJpg fileBuffer with
        | some wh => .processed [⟨wh.1, wh.2, .embeddedImage i ⟨0, 0, wh.1, wh.2⟩⟩]
        | none => .errorSkip
      else if ext = ".pdf" then
        match env.loadPdf fileBuffer with
        | some pgs => .processed (pgs.enum.map fun x => ⟨x.2.1, x.2.2, .copiedPage i x.1⟩)
        | none => .errorSkip
      else
        .unsupportedSkip
    | _, _ => .invalidObject

/-- Pages accumulated by the per-file loop starting at index `i`: each
entry's pages are appended in input order. -/
def mergeLoop (env : Env) (i : Nat) : List (Option FileEntry) → List Page
  | [] => []
  | f :: rest => outcomePages (processFile env i f) ++ mergeLoop env (i + 1) rest

/-- Trace of the per-entry decisions of the loop, starting at index `i`. -/
def loopOutcomes (env : Env) (i : Nat) : List (Option FileEntry) → List FileOutcome
  | [] => []
  | f :: rest => processFile env i f :: loopOutcomes env (i + 1) rest

/-- The fatal errors `createSinglePdfFromFiles` can throw:
* `invalidInput`: "Input 'files' must be a non-empty array." (line 139);
* `invalidOutputPath`: "Invalid 'outputPdfPath' provided." (line 142);
* `emptyResult`: "No valid pages could be added to the output PDF."
  (line 210). -/
inductive MergeError where
  | invalidInput : MergeError
  | invalidOutputPath : MergeError
  | emptyResult : MergeError
  deriving DecidableEq

/-- Model of the filesystem state: the set of existing directories and the
existing files with their byte contents. -/
structure FS where
  dirs : List String
  files : List (String × List Nat)
  deriving DecidableEq

/-- Models `fs.existsSync`: true when the path names an existing directory
or an existing file. -/
def existsPath (fs : FS) (p : String) : Bool :=
  fs.dirs.contains p || fs.files.any (fun q => q.1 == p)

/-- The chain of a directory and its ancestors, obtained by iterating
`dirname` until it reaches a fixpoint ('.' or '/'); the fuel bounds the
iteration and is in practice never exhausted. -/
def ancestorsAux : Nat → String → List String
  | 0, d => [d]
  | fuel + 1, d =>
    let p := dirname d
    if p = d then [d] else d :: ancestorsAux fuel p

/-- The directory `d` together with all its ancestors. -/
def ancestorChain (d : String) : List String :=
  ancestorsAux (d.length + 1) d

/-- Models `fs.mkdirSync(d, { recursive: true })`: the directory and all its
missing ancestors now exist. -/
def mkdirRecursive (fs : FS) (d : String) : FS :=
  { fs with dirs := ancestorChain d ++ fs.dirs }

/-- Models `fs.writeFileSync`: the file at `p` now holds `bytes`, replacing
any previous file at that path. -/
def writeFile (fs : FS) (p : String) (bytes : List Nat) : FS :=
  { fs with files := (p, bytes) :: fs.files.filter (fun q => q.1 != p) }

/-- Contents of the file at `p`, if one exists. -/
def lookupFile (fs : FS) (p : String) : Option (List Nat) :=
  (fs.files.find? (fun q => q.1 == p)).map (fun q => q.2)

/-- Shallow embedding of `createSinglePdfFromFiles(files, outputPdfPath)`
(src/utils/gemini_api.js lines 137-230).  The JavaScript checks
`!Array.isArray(files) || files.length === 0` and
`typeof outputPdfPath !== 'string' || !outputPdfPath` become the `notArray`
case, the length test and the emptiness test (the path parameter is already
a string here, so only `!outputPdfPath`, i.e. emptiness, remains).  The
function returns the thrown error or the returned path, paired with the
filesystem state after the call. -/
def createSinglePdfFromFiles (env : Env) (fs0 : FS) (files : RawInput)
    (outputPdfPath : String) : Except MergeError String × FS :=
  match files with
  | .notArray => (.error .invalidInput, fs0)
  | .arr l =>
    if l.length = 0 then (.error .invalidInput, fs0)
    else if outputPdfPath = "" then (.error .invalidOutputPath, fs0)
    else
      let pages := mergeLoop env 0 l
      if pages.length = 0 then (.error .emptyResult, fs0)
      else
        let finalPdfBytes := env.save pages
        let outputDir := dirname outputPdfPath
        let fs1 := if existsPath fs0 outputDir then fs0 else mkdirRecursive fs0 outputDir
        (.ok outputPdfPath, writeFile fs1 outputPdfPath finalPdfBytes)

/-- The four format classes of the Format Dispatcher. -/
inductive FileFormat where
  | rasterPng : FileFormat
  | rasterJpeg : FileFormat
  | pdfDoc : FileFormat
  | unsupported : FileFormat
  deriving DecidableEq

/-- Format classification as performed by the dispatch at lines 160 and
168-199: a pure function of the case-insensitive filename extension. -/
def classify (name : String) : FileFormat :=
  let ext := jsToLower (extname name)
  if ext = ".png" then .rasterPng
  else if ext = ".jpg" ∨ ext = ".jpeg" then .rasterJpeg
  else if ext = ".pdf" then .pdfDoc
  else .unsupported

/-- Dispatch of the already-classified format on the decoded buffer; used to
state that `processFile` factors through `classify`, i.e. that the format
decision depends only on the filename and never on the file content. -/
def dispatchByFormat (env : Env) (i : Nat) (fmt : FileFormat) (buf : List Nat) :
    FileOutcome :=
  match fmt with
  | .rasterPng =>
    match env.embedPng buf with
    | some wh => .processed [⟨wh.1, wh.2, .embeddedImage i ⟨0, 0, wh.1, wh.2⟩⟩]
    | none => .errorSkip
  | .rasterJpeg =>
    match env.embedJpg buf with
    | some wh => .processed [⟨wh.1, wh.2, .embeddedImage i ⟨0, 0, wh.1, wh.2⟩⟩]
    | none => .errorSkip
  | .pdfDoc =>
    match env.loadPdf buf with
    | some pgs => .processed (pgs.enum.map fun x => ⟨x.2.1, x.2.2, .copiedPage i x.1⟩)
    | none => .errorSkip
  | .unsupported => .unsupportedSkip

/-- The structural validation of line 153, as a boolean on one entry:
the entry is non-null and both `fileName` and `fileData` are strings. -/
def isValidFileObject : Option FileEntry → Bool
  | some ⟨.str _, .str _⟩ => true
  | _ => false

/-- Native dimensions the entry decodes to when it is a well-formed raster
image (.png/.jpg/.jpeg) entry, and `none` otherwise. -/
def rasterDims (env : Env) : Option FileEntry → Option (Nat × Nat)
  | some ⟨.str name, .str data⟩ =>
    let ext := jsToLower (extname name)
    if ext = ".png" then env.embedPng (env.b64decode data)
    else if ext = ".jpg" ∨ ext = ".jpeg" then env.embedJpg (env.b64decode data)
    else none
  | _ => none

/-- The entry is well-formed and its bytes decode under its declared
(supported) format. -/
def entryDecodes (env : Env) (f : Option FileEntry) : Prop :=
  ∃ name data, f = some ⟨JsVal.str name, JsVal.str data⟩ ∧
    ((jsToLower (extname name) = ".png" ∧
        (env.embedPng (env.b64decode data)).isSome) ∨
     ((jsToLower (extname name) = ".jpg" ∨ jsToLower (extname name) = ".jpeg") ∧
        (env.embedJpg (env.b64decode data)).isSome) ∨
     (jsToLower (extname name) = ".pdf" ∧
        (env.loadPdf (env.b64decode data)).isSome))

/-- The entry is well-formed and of a supported format, but its bytes fail
to decode as an image or to open as a PDF (the decoder throws). -/
def entryCorrupt (env : Env) (f : Option FileEntry) : Prop :=
  ∃ name data, f = some ⟨JsVal.str name, JsVal.str data⟩ ∧
    ((jsToLower (extname name) = ".png" ∧
        env.embedPng (env.b64decode data) = none) ∨
     ((jsToLower (extname name) = ".jpg" ∨ jsToLower (extname name) = ".jpeg") ∧
        env.embedJpg (env.b64decode data) = none) ∨
     (jsToLower (extname name) = ".pdf" ∧
        env.loadPdf (env.b64decode data) = none))

/-- The entry is well-formed but its extension is not a recognized one. -/
def entryUnsupported (f : Option FileEntry) : Prop :=
  ∃ name data, f = some ⟨JsVal.str name, JsVal.str data⟩ ∧
    classify name = .unsupported

/-- The entry is a well-formed PDF entry that opens successfully but whose
source document contains zero pages. -/
def emptyPdfEntry (env : Env) (f : Option FileEntry) : Prop :=
  ∃ name data, f = some ⟨JsVal.str name, JsVal.str data⟩ ∧
    jsToLower (extname name) = ".pdf" ∧
    env.loadPdf (env.b64decode data) = some []

/-- Concrete decoder environment used by the witnesses and counterexamples:
a small table of payloads and decodings. -/
def env0 : Env where
  b64decode s :=
    if s = "A" then [1] else if s = "B" then [2]
    else if s = "C" then [3] else if s = "E" then [4] else []
  embedPng b := if b = [1] then some (5, 7) else none
  embedJpg b := if b = [3] then some (9, 11) else none
  loadPdf b :=
    if b = [2] then some [(10, 20), (30, 40)]
    else if b = [4] then some [] else none
  save pgs := [pgs.length]

/-- A decodable PNG entry. -/
def fileA : Option FileEntry := some ⟨JsVal.str "a.png", JsVal.str "A"⟩

/-- A decodable two-page PDF entry. -/
def fileB : Option FileEntry := some ⟨JsVal.str "b.pdf", JsVal.str "B"⟩

/-- A decodable JPEG entry. -/
def fileC : Option FileEntry := some ⟨JsVal.str "c.jpg", JsVal.str "C"⟩

/-- A PNG entry whose bytes fail to decode. -/
def fileBadPng : Option FileEntry := some ⟨JsVal.str "bad.png", JsVal.str "Z"⟩

/-- A PDF entry that opens successfully but has zero pages. -/
def fileEmptyPdf : Option FileEntry := some ⟨JsVal.str "empty.pdf", JsVal.str "E"⟩

/-- An entry with an unrecognized extension. -/
def fileTxt : Option FileEntry := some ⟨JsVal.str "notes.txt", JsVal.str "A"⟩

theorem mergeLoop_append (env : Env) (xs ys : List (Option FileEntry)) (i : Nat) :
    mergeLoop env i (xs ++ ys) = mergeLoop env i xs ++ mergeLoop env (i + xs.length) ys := by
  induction xs generalizing i with
  | nil => simp [mergeLoop]
  | cons f rest ih =>
    have harith : i + 1 + rest.length = i + (rest.length + 1) := by omega
    simp only [List.cons_append, mergeLoop, List.length_cons, List.append_assoc,
      List.append_eq]
    rw [ih (i + 1), harith]

theorem processFile_srcIdx (env : Env) (i : Nat) (f : Option FileEntry) :
    ∀ p ∈ outcomePages (processFile env i f), p.srcIdx = i := by
  intro p hp
  rcases f with _ | ⟨nm | _, dt | _⟩
  · simp [processFile, outcomePages] at hp
  · simp only [processFile] at hp
    repeat' split at hp
    all_goals
      simp only [outcomePages, List.mem_singleton, List.mem_map,
        List.not_mem_nil] at hp
    · subst hp; rfl
    · subst hp; rfl
    · obtain ⟨x, _, rfl⟩ := hp; rfl
  · simp [processFile, outcomePages] at hp
  · simp [processFile, outcomePages] at hp
  · simp [processFile, outcomePages] at hp

theorem mergeLoop_srcIdx_range (env : Env) (i : Nat) (l : List (Option FileEntry)) :
    ∀ p ∈ mergeLoop env i l, i ≤ p.srcIdx ∧ p.srcIdx < i + l.length := by
  induction l generalizing i with
  | nil => simp [mergeLoop]
  | cons f rest ih =>
    intro p hp
    simp only [mergeLoop, List.mem_append] at hp
    rcases hp with hp | hp
    · have h := processFile_srcIdx env i f p hp
      simp only [List.length_cons]
      omega
    · have h := ih (i + 1) p hp
      simp only [List.length_cons]
      omega

/-- C1: in the output of the consolidation loop, the page group of each
input entry appears contiguously and in input order (pages from earlier
entries strictly before it, pages from later entries strictly after it),
and for an entry that is itself a multi-page PDF the group consists of the
source document's pages in their original order. -/
theorem c1_page_ordering (env : Env) (xs ys : List (Option FileEntry))
    (f : Option FileEntry) :
    mergeLoop env 0 (xs ++ f :: ys) =
      mergeLoop env 0 xs ++ outcomePages (processFile env xs.length f) ++
        mergeLoop env (xs.length + 1) ys ∧
    (∀ p ∈ outcomePages (processFile env xs.length f), p.srcIdx = xs.length) ∧
    (∀ p ∈ mergeLoop env 0 xs, p.srcIdx < xs.length) ∧
    (∀ p ∈ mergeLoop env (xs.length + 1) ys, xs.length < p.srcIdx) ∧
    (∀ name data pgs, f = some ⟨JsVal.str name, JsVal.str data⟩ →
      jsToLower (extname name) = ".pdf" →
      env.loadPdf (env.b64decode data) = some pgs →
      outcomePages (processFile env xs.length f) =
        pgs.enum.map fun x => ⟨x.2.1, x.2.2, PageContent.copiedPage xs.length x.1⟩) := by
  refine ⟨?_, processFile_srcIdx env xs.length f, ?_, ?_, ?_⟩
  · have h := mergeLoop_append env xs (f :: ys) 0
    simp only [Nat.zero_add] at h
    simp only [h, mergeLoop, List.append_assoc]
  · intro p hp
    exact (mergeLoop_srcIdx_range env 0 xs p hp).2.trans_le (by omega)
  · intro p hp
    have h := (mergeLoop_srcIdx_range env (xs.length + 1) ys p hp).1
    omega
  · intro name data pgs hf hext hload
    subst hf
    simp [processFile, hext, hload, outcomePages]

/-- Witness for C1 at a concrete input: the list [a.png, b.pdf (2 pages),
c.jpg] yields the page group of b.pdf contiguously between the page of
a.png and the page of c.jpg, with b.pdf's two pages in original order. -/
theorem c1_witness :
    mergeLoop env0 0 [fileA, fileB, fileC] =
      mergeLoop env0 0 [fileA] ++ outcomePages (processFile env0 1 fileB) ++
        mergeLoop env0 2 [fileC] ∧
    outcomePages (processFile env0 1 fileB) =
      [⟨10, 20, PageContent.copiedPage 1 0⟩, ⟨30, 40, PageContent.copiedPage 1 1⟩] := by
  have h := c1_page_ordering env0 [fileA] [fileC] fileB
  refine ⟨h.1, ?_⟩
  have h5 := h.2.2.2.2 "b.pdf" "B" [(10, 20), (30, 40)] rfl (by decide) (by decide)
  exact h5.trans (by rfl)

theorem processFile_raster (env : Env) (i : Nat) (f : Option FileEntry) (w h : Nat)
    (hr : rasterDims env f = some (w, h)) :
    processFile env i f =
      .processed [⟨w, h, .embeddedImage i ⟨0, 0, w, h⟩⟩] := by
  rcases f with _ | ⟨nm | _, dt | _⟩
  · simp [rasterDims] at hr
  · simp only [rasterDims] at hr
    by_cases h1 : jsToLower (extname nm) = ".png"
    · rw [if_pos h1] at hr
      simp [processFile, h1, hr]
    · by_cases h2 : jsToLower (extname nm) = ".jpg" ∨ jsToLower (extname nm) = ".jpeg"
      · rw [if_neg h1, if_pos h2] at hr
        simp [processFile, h1, h2, hr]
      · rw [if_neg h1, if_neg h2] at hr
        simp at hr
  · simp [rasterDims] at hr
  · simp [rasterDims] at hr
  · simp [rasterDims] at hr

theorem mergeLoop_raster (env : Env) (i : Nat) (l : List (Option FileEntry))
    (hall : ∀ f ∈ l, (rasterDims env f).isSome) :
    mergeLoop env i l = (l.enumFrom i).map fun x =>
      ⟨((rasterDims env x.2).getD (0, 0)).1, ((rasterDims env x.2).getD (0, 0)).2,
        PageContent.embeddedImage x.1
          ⟨0, 0, ((rasterDims env x.2).getD (0, 0)).1,
            ((rasterDims env x.2).getD (0, 0)).2⟩⟩ := by
  induction l generalizing i with
  | nil => rfl
  | cons f rest ih =>
    obtain ⟨wh, hw⟩ := Option.isSome_iff_exists.mp (hall f (List.mem_cons_self f rest))
    have h2 : processFile env i f =
        .processed [⟨wh.1, wh.2, .embeddedImage i ⟨0, 0, wh.1, wh.2⟩⟩] :=
      processFile_raster env i f wh.1 wh.2 (by rw [hw])
    simp only [mergeLoop, h2, outcomePages, List.enumFrom_cons, List.map_cons,
      List.singleton_append, hw, Option.getD_some,
      ih (i + 1) (fun g hg => hall g (List.mem_cons_of_mem f hg))]

theorem createSingle_ok (env : Env) (fs0 : FS) (l : List (Option FileEntry))
    (out : String) (hne : l.length ≠ 0) (hout : out ≠ "")
    (hpg : (mergeLoop env 0 l).length ≠ 0) :
    createSinglePdfFromFiles env fs0 (.arr l) out =
      (.ok out,
        writeFile (if existsPath fs0 (dirname out) then fs0
          else mkdirRecursive fs0 (dirname out)) out (env.save (mergeLoop env 0 l))) := by
  simp [createSinglePdfFromFiles, hne, hout, hpg]

theorem createSingle_emptyResult (env : Env) (fs0 : FS) (l : List (Option FileEntry))
    (out : String) (hne : l.length ≠ 0) (hout : out ≠ "")
    (hpg : (mergeLoop env 0 l).length = 0) :
    createSinglePdfFromFiles env fs0 (.arr l) out = (.error .emptyResult, fs0) := by
  simp [createSinglePdfFromFiles, hne, hout, hpg]

/-- C2: for a non-empty list of well-formed decodable raster-image entries
and a non-empty output path, the consolidation call succeeds, the page list
has exactly one page per input entry in input order, and each page's width
and height equal the source image's native dimensions with the image drawn
at origin (0,0) at exactly the page's size (no scaling, cropping or
rotation). -/
theorem c2_raster_pages (env : Env) (fs0 : FS) (l : List (Option FileEntry))
    (out : String) (hne : l ≠ []) (hout : out ≠ "")
    (hall : ∀ f ∈ l, (rasterDims env f).isSome) :
    (createSinglePdfFromFiles env fs0 (.arr l) out).1 = .ok out ∧
    (mergeLoop env 0 l).length = l.length ∧
    mergeLoop env 0 l = (l.enumFrom 0).map fun x =>
      ⟨((rasterDims env x.2).getD (0, 0)).1, ((rasterDims env x.2).getD (0, 0)).2,
        PageContent.embeddedImage x.1
          ⟨0, 0, ((rasterDims env x.2).getD (0, 0)).1,
            ((rasterDims env x.2).getD (0, 0)).2⟩⟩ := by
  have hm := mergeLoop_raster env 0 l hall
  have hlen : (mergeLoop env 0 l).length = l.length := by
    rw [hm]; simp
  have hne' : l.length ≠ 0 := by
    intro h
    exact hne (List.length_eq_zero.mp h)
  refine ⟨?_, hlen, hm⟩
  rw [createSingle_ok env fs0 l out hne' hout (by rw [hlen]; exact hne')]

/-- Witness for C2 at a concrete input: [a.png (5x7), c.jpg (9x11)] yields a
successful call with two pages of the images' native dimensions, each image
drawn at (0,0) covering its page. -/
theorem c2_witness :
    (createSinglePdfFromFiles env0 ⟨[], []⟩ (.arr [fileA, fileC]) "/tmp/x.pdf").1 =
      .ok "/tmp/x.pdf" ∧
    (mergeLoop env0 0 [fileA, fileC]).length = 2 ∧
    mergeLoop env0 0 [fileA, fileC] =
      [⟨5, 7, PageContent.embeddedImage 0 ⟨0, 0, 5, 7⟩⟩,
       ⟨9, 11, PageContent.embeddedImage 1 ⟨0, 0, 9, 11⟩⟩] := by
  have h := c2_raster_pages env0 ⟨[], []⟩ [fileA, fileC] "/tmp/x.pdf"
    (by decide) (by decide) (by decide)
  exact ⟨h.1, h.2.1, h.2.2.trans (by rfl)⟩

theorem processFile_corrupt (env : Env) (i : Nat) (f : Option FileEntry)
    (h : entryCorrupt env f) : processFile env i f = .errorSkip := by
  obtain ⟨name, data, rfl, hc⟩ := h
  rcases hc with ⟨hext, hdec⟩ | ⟨hext, hdec⟩ | ⟨hext, hdec⟩
  · simp [processFile, hext, hdec]
  · have hne : jsToLower (extname name) ≠ ".png" := by
      rcases hext with hx | hx <;> rw [hx] <;> decide
    simp [processFile, hne, hext, hdec]
  · have hne1 : jsToLower (extname name) ≠ ".png" := by rw [hext]; decide
    have hne2 : ¬(jsToLower (extname name) = ".jpg" ∨
        jsToLower (extname name) = ".jpeg") := by
      rw [hext]; decide
    simp [processFile, hne1, hne2, hext, hdec]

theorem processFile_unsupported (env : Env) (i : Nat) (name data : String)
    (h : classify name = .unsupported) :
    processFile env i (some ⟨.str name, .str data⟩) = .unsupportedSkip := by
  simp only [classify] at h
  by_cases h1 : jsToLower (extname name) = ".png"
  · rw [if_pos h1] at h
    exact FileFormat.noConfusion h
  · by_cases h2 : jsToLower (extname name) = ".jpg" ∨ jsToLower (extname name) = ".jpeg"
    · rw [if_neg h1, if_pos h2] at h
      exact FileFormat.noConfusion h
    · by_cases h3 : jsToLower (extname name) = ".pdf"
      · rw [if_neg h1, if_neg h2, if_pos h3] at h
        exact FileFormat.noConfusion h
      · simp [processFile, h1, h2, h3]

theorem mergeLoop_eq_nil (env : Env) :
    ∀ (l : List (Option FileEntry)) (i : Nat),
      (∀ f ∈ l, ∀ j, outcomePages (processFile env j f) = []) →
      mergeLoop env i l = []
  | [], _, _ => rfl
  | f :: rest, i, h => by
    simp only [mergeLoop, h f (List.mem_cons_self f rest) i, List.nil_append]
    exact mergeLoop_eq_nil env rest (i + 1)
      (fun g hg j => h g (List.mem_cons_of_mem f hg) j)

/-- Counterexample to C3 as stated: in the list [bad.png, empty.pdf],
exactly one entry is corrupt (bad.png's bytes fail to decode) and the other
is valid (empty.pdf opens successfully, with zero pages), yet the call does
not succeed: the fatal zero-page error escapes it. -/
theorem c3_counterexample :
    entryCorrupt env0 fileBadPng ∧ entryDecodes env0 fileEmptyPdf ∧
    createSinglePdfFromFiles env0 ⟨[], []⟩
      (.arr [fileBadPng, fileEmptyPdf]) "/tmp/x.pdf" =
      (.error .emptyResult, ⟨[], []⟩) := by
  refine ⟨⟨"bad.png", "Z", rfl, Or.inl ⟨by decide, by decide⟩⟩,
    ⟨"empty.pdf", "E", rfl, Or.inr (Or.inr ⟨by decide, by decide⟩)⟩, by rfl⟩

/-- C3 (amended): for a list containing exactly one corrupt entry, with all
other entries valid, and whose valid entries contribute at least one page,
the per-file error is caught and the corrupt entry skipped: the call
succeeds, every valid entry's pages are present in order, and the corrupt
entry contributes none. -/
theorem c3_amended_fault_isolation (env : Env) (fs0 : FS)
    (xs ys : List (Option FileEntry)) (c : Option FileEntry) (out : String)
    (hout : out ≠ "") (hc : entryCorrupt env c)
    (_hvalid : ∀ f ∈ xs ++ ys, entryDecodes env f)
    (hsome : mergeLoop env 0 xs ++ mergeLoop env (xs.length + 1) ys ≠ []) :
    (createSinglePdfFromFiles env fs0 (.arr (xs ++ c :: ys)) out).1 = .ok out ∧
    mergeLoop env 0 (xs ++ c :: ys) =
      mergeLoop env 0 xs ++ mergeLoop env (xs.length + 1) ys := by
  have hsplit : mergeLoop env 0 (xs ++ c :: ys) =
      mergeLoop env 0 xs ++ mergeLoop env (xs.length + 1) ys := by
    have h := mergeLoop_append env xs (c :: ys) 0
    simp only [Nat.zero_add] at h
    rw [h]
    simp only [mergeLoop, processFile_corrupt env xs.length c hc, outcomePages,
      List.nil_append]
  have hne : (xs ++ c :: ys).length ≠ 0 := by simp
  have hpg : (mergeLoop env 0 (xs ++ c :: ys)).length ≠ 0 := by
    rw [hsplit]
    intro hcon
    exact hsome (List.length_eq_zero.mp hcon)
  rw [createSingle_ok env fs0 (xs ++ c :: ys) out hne hout hpg]
  exact ⟨rfl, hsplit⟩

/-- Witness for the amended C3 at a concrete input: [a.png, bad.png]
succeeds, with a page for a.png and nothing for the corrupt bad.png. -/
theorem c3_witness :
    (createSinglePdfFromFiles env0 ⟨[], []⟩
        (.arr [fileA, fileBadPng]) "/tmp/x.pdf").1 = .ok "/tmp/x.pdf" ∧
    mergeLoop env0 0 [fileA, fileBadPng] =
      mergeLoop env0 0 [fileA] ++ mergeLoop env0 2 [] := by
  have h := c3_amended_fault_isolation env0 ⟨[], []⟩ [fileA] [] fileBadPng
    "/tmp/x.pdf" (by decide)
    ⟨"bad.png", "Z", rfl, Or.inl ⟨by decide, by decide⟩⟩
    (by
      intro f hf
      simp at hf
      subst hf
      exact ⟨"a.png", "A", rfl, Or.inl ⟨by decide, by decide⟩⟩)
    (by decide)
  exact h

/-- C4: for a non-empty list in which every entry is corrupt or of an
unsupported format, zero pages are appended, the call throws the fatal
zero-page error after the loop, and the filesystem is untouched (no
serialization, directory creation or write happens). -/
theorem c4_all_corrupt_or_unsupported (env : Env) (fs0 : FS)
    (l : List (Option FileEntry)) (out : String)
    (hne : l ≠ []) (hout : out ≠ "")
    (hall : ∀ f ∈ l, entryCorrupt env f ∨ entryUnsupported f) :
    createSinglePdfFromFiles env fs0 (.arr l) out = (.error .emptyResult, fs0) := by
  have hpages : mergeLoop env 0 l = [] := by
    apply mergeLoop_eq_nil env l 0
    intro f hf j
    rcases hall f hf with hc | hu
    · rw [processFile_corrupt env j f hc]
      rfl
    · obtain ⟨name, data, rfl, hcl⟩ := hu
      rw [processFile_unsupported env j name data hcl]
      rfl
  have hne' : l.length ≠ 0 := fun h => hne (List.length_eq_zero.mp h)
  exact createSingle_emptyResult env fs0 l out hne' hout (by rw [hpages]; rfl)

/-- Witness for C4 at a concrete input: [bad.png (corrupt), notes.txt
(unsupported)] throws the zero-page error and leaves the filesystem
unchanged. -/
theorem c4_witness :
    createSinglePdfFromFiles env0 ⟨[], []⟩
      (.arr [fileBadPng, fileTxt]) "/tmp/x.pdf" =
      (.error .emptyResult, ⟨[], []⟩) := by
  apply c4_all_corrupt_or_unsupported env0 ⟨[], []⟩ [fileBadPng, fileTxt]
    "/tmp/x.pdf" (by decide) (by decide)
  intro f hf
  simp at hf
  rcases hf with rfl | rfl
  · exact Or.inl ⟨"bad.png", "Z", rfl, Or.inl ⟨by decide, by decide⟩⟩
  · exact Or.inr ⟨"notes.txt", "A", rfl, by decide⟩

/-- Counterexample to C5 as stated: the claim says entries whose name or
payload is the empty string are dropped by the validation step, but the
check at line 153 only tests that both are strings: the entry with empty
name and empty payload passes validation (it is later skipped by the
format dispatch as unsupported, not dropped as an invalid object). -/
theorem c5_counterexample :
    isValidFileObject (some ⟨JsVal.str "", JsVal.str ""⟩) = true ∧
    processFile env0 0 (some ⟨JsVal.str "", JsVal.str ""⟩) = .unsupportedSkip :=
  ⟨rfl, rfl⟩

/-- C5 (amended): the validation step retains exactly the entries that are
present (non-null) and whose name and payload are both string-typed, empty
strings included; every entry failing that check is dropped as an invalid
object and contributes no pages. -/
theorem c5_amended_validation (f : Option FileEntry) :
    (isValidFileObject f = true ↔
      ∃ name data, f = some ⟨JsVal.str name, JsVal.str data⟩) ∧
    (isValidFileObject f = false →
      ∀ env i, processFile env i f = .invalidObject ∧
        outcomePages (processFile env i f) = []) := by
  rcases f with _ | ⟨nm | _, dt | _⟩
  · exact ⟨by simp [isValidFileObject], fun _ env i => ⟨rfl, rfl⟩⟩
  · refine ⟨by simp [isValidFileObject], ?_⟩
    intro h
    simp [isValidFileObject] at h
  · exact ⟨by simp [isValidFileObject], fun _ env i => ⟨rfl, rfl⟩⟩
  · exact ⟨by simp [isValidFileObject], fun _ env i => ⟨rfl, rfl⟩⟩
  · exact ⟨by simp [isValidFileObject], fun _ env i => ⟨rfl, rfl⟩⟩

/-- Witness for the amended C5 at a concrete input: an entry whose
`fileName` is not a string fails validation and is dropped. -/
theorem c5_witness :
    isValidFileObject (some ⟨JsVal.nonString, JsVal.str "x"⟩) = false ∧
    processFile env0 0 (some ⟨JsVal.nonString, JsVal.str "x"⟩) = .invalidObject := by
  have h := c5_amended_validation (some ⟨JsVal.nonString, JsVal.str "x"⟩)
  exact ⟨by decide, (h.2 (by decide) env0 0).1⟩

/-- C6: a raw input that is not an array, or an empty array, makes the call
throw the invalid-input error immediately, with the filesystem untouched
and no entry processed. -/
theorem c6_invalid_input (env : Env) (fs0 : FS) (input : RawInput) (out : String)
    (h : input = RawInput.notArray ∨ input = RawInput.arr []) :
    createSinglePdfFromFiles env fs0 input out = (.error .invalidInput, fs0) := by
  rcases h with rfl | rfl
  · rfl
  · rfl

/-- Witness for C6 at a concrete input: a non-array input throws the
invalid-input error at once. -/
theorem c6_witness :
    createSinglePdfFromFiles env0 ⟨[], []⟩ RawInput.notArray "/tmp/x.pdf" =
      (.error .invalidInput, ⟨[], []⟩) :=
  c6_invalid_input env0 ⟨[], []⟩ RawInput.notArray "/tmp/x.pdf" (Or.inl rfl)

/-- C7: format classification is a pure, case-insensitive function of the
filename's extension — .png maps to raster-png, .jpg/.jpeg to raster-jpeg,
.pdf to pdf, anything else to unsupported; the per-file processing factors
through this classification, so the file content is never inspected for
classification; an unsupported entry is skipped (not a fatal error). -/
theorem c7_format_dispatch (name : String) :
    (classify name = .rasterPng ↔ jsToLower (extname name) = ".png") ∧
    (classify name = .rasterJpeg ↔
      (jsToLower (extname name) = ".jpg" ∨ jsToLower (extname name) = ".jpeg")) ∧
    (classify name = .pdfDoc ↔ jsToLower (extname name) = ".pdf") ∧
    (classify name = .unsupported ↔
      ¬(jsToLower (extname name) = ".png" ∨ jsToLower (extname name) = ".jpg" ∨
        jsToLower (extname name) = ".jpeg" ∨ jsToLower (extname name) = ".pdf")) ∧
    (∀ env i data, processFile env i (some ⟨JsVal.str name, JsVal.str data⟩) =
      dispatchByFormat env i (classify name) (env.b64decode data)) ∧
    (∀ env i data, classify name = .unsupported →
      processFile env i (some ⟨JsVal.str name, JsVal.str data⟩) =
        .unsupportedSkip) := by
  by_cases h1 : jsToLower (extname name) = ".png"
  · simp [classify, processFile, dispatchByFormat, h1]
  · by_cases h2 : jsToLower (extname name) = ".jpg" ∨ jsToLower (extname name) = ".jpeg"
    · rcases h2 with h2 | h2 <;> simp [classify, processFile, dispatchByFormat, h1, h2]
    · obtain ⟨h2a, h2b⟩ := not_or.mp h2
      by_cases h3 : jsToLower (extname name) = ".pdf"
      · simp [classify, processFile, dispatchByFormat, h1, h2a, h2b, h3]
      · simp [classify, processFile, dispatchByFormat, h1, h2a, h2b, h3]

/-- Witness for C7 at concrete inputs: "x.PNG" classifies case-insensitively
as raster-png; "notes.txt" dispatches through its classification and is
skipped as unsupported. -/
theorem c7_witness :
    classify "x.PNG" = .rasterPng ∧
    processFile env0 0 (some ⟨JsVal.str "notes.txt", JsVal.str "A"⟩) =
      dispatchByFormat env0 0 (classify "notes.txt") (env0.b64decode "A") ∧
    processFile env0 0 (some ⟨JsVal.str "notes.txt", JsVal.str "A"⟩) =
      .unsupportedSkip := by
  refine ⟨?_, ?_, ?_⟩
  · exact (c7_format_dispatch "x.PNG").1.mpr (by decide)
  · exact (c7_format_dispatch "notes.txt").2.2.2.2.1 env0 0 "A"
  · exact (c7_format_dispatch "notes.txt").2.2.2.2.2 env0 0 "A" (by decide)

theorem lookupFile_writeFile (fs : FS) (p : String) (bytes : List Nat) :
    lookupFile (writeFile fs p bytes) p = some bytes := by
  simp only [lookupFile, writeFile]
  rw [List.find?_cons_of_pos _ (by simp)]
  rfl

theorem writeFile_dirs (fs : FS) (p : String) (bytes : List Nat) :
    (writeFile fs p bytes).dirs = fs.dirs := rfl

/-- C8: when at least one page was appended (and the call is otherwise
well-formed), the call serializes the page list, creates the output path's
parent directory and its missing ancestors when the parent does not exist
(leaving directories untouched when it does), writes the serialized bytes
at the output path (replacing any existing file there), and returns the
output path. -/
theorem c8_output_writer (env : Env) (fs0 : FS) (l : List (Option FileEntry))
    (out : String) (r : Except MergeError String × FS)
    (hne : l.length ≠ 0) (hout : out ≠ "")
    (hpg : (mergeLoop env 0 l).length ≠ 0)
    (hr : r = createSinglePdfFromFiles env fs0 (.arr l) out) :
    r.1 = .ok out ∧
    lookupFile r.2 out = some (env.save (mergeLoop env 0 l)) ∧
    (existsPath fs0 (dirname out) = false →
      ∀ a ∈ ancestorChain (dirname out), a ∈ r.2.dirs) ∧
    (existsPath fs0 (dirname out) = true → r.2.dirs = fs0.dirs) := by
  subst hr
  rw [createSingle_ok env fs0 l out hne hout hpg]
  refine ⟨rfl, lookupFile_writeFile _ out _, ?_, ?_⟩
  · intro hex a ha
    have hnex : ¬(existsPath fs0 (dirname out) = true) := by simp [hex]
    rw [writeFile_dirs, if_neg hnex]
    simp only [mkdirRecursive, List.mem_append]
    exact Or.inl ha
  · intro hex
    rw [writeFile_dirs, if_pos hex]

/-- Witness for C8 at a concrete input: with an empty filesystem (the
parent directory /tmp/out does not exist), the call still succeeds, writes
the serialized bytes at the output path, and creates the directory. -/
theorem c8_witness :
    (createSinglePdfFromFiles env0 ⟨[], []⟩ (.arr [fileA]) "/tmp/out/x.pdf").1 =
      .ok "/tmp/out/x.pdf" ∧
    lookupFile (createSinglePdfFromFiles env0 ⟨[], []⟩ (.arr [fileA])
      "/tmp/out/x.pdf").2 "/tmp/out/x.pdf" = some [1] ∧
    "/tmp/out" ∈ (createSinglePdfFromFiles env0 ⟨[], []⟩ (.arr [fileA])
      "/tmp/out/x.pdf").2.dirs := by
  have h := c8_output_writer env0 ⟨[], []⟩ [fileA] "/tmp/out/x.pdf" _
    (by decide) (by decide) (by decide) rfl
  refine ⟨h.1, ?_, ?_⟩
  · rw [h.2.1]
    rfl
  · exact h.2.2.1 (by decide) "/tmp/out" (by decide)

/-- C9: a PDF entry that opens successfully with zero pages is processed
normally (no invalid-object drop, no unsupported skip, no per-file error)
and contributes zero pages; a non-empty list consisting only of such
entries therefore makes the call throw the fatal zero-page error. -/
theorem c9_zero_page_pdf (env : Env) (fs0 : FS) (l : List (Option FileEntry))
    (out : String) (hne : l ≠ []) (hout : out ≠ "")
    (hall : ∀ f ∈ l, emptyPdfEntry env f) :
    (∀ f ∈ l, ∀ i, processFile env i f = .processed []) ∧
    createSinglePdfFromFiles env fs0 (.arr l) out = (.error .emptyResult, fs0) := by
  have hproc : ∀ f ∈ l, ∀ i, processFile env i f = .processed [] := by
    intro f hf i
    obtain ⟨name, data, rfl, hext, hload⟩ := hall f hf
    simp [processFile, hext, hload]
  refine ⟨hproc, ?_⟩
  have hpages : mergeLoop env 0 l = [] := by
    apply mergeLoop_eq_nil env l 0
    intro f hf j
    rw [hproc f hf j]
    rfl
  have hne' : l.length ≠ 0 := fun h => hne (List.length_eq_zero.mp h)
  exact createSingle_emptyResult env fs0 l out hne' hout (by rw [hpages]; rfl)

/-- Witness for C9 at a concrete input: the zero-page empty.pdf is
processed (not skipped), yet alone it yields the fatal zero-page error. -/
theorem c9_witness :
    processFile env0 0 fileEmptyPdf = .processed [] ∧
    createSinglePdfFromFiles env0 ⟨[], []⟩ (.arr [fileEmptyPdf]) "/tmp/x.pdf" =
      (.error .emptyResult, ⟨[], []⟩) := by
  have h := c9_zero_page_pdf env0 ⟨[], []⟩ [fileEmptyPdf] "/tmp/x.pdf"
    (by decide) (by decide)
    (by
      intro f hf
      simp at hf
      subst hf
      exact ⟨"empty.pdf", "E", rfl, by decide, by decide⟩)
  exact ⟨h.1 fileEmptyPdf (by simp) 0, h.2⟩

/-- C10: the consolidation call is deterministic — for the same decoder
environment, filesystem, input list and output path, two runs return the
same result, make the same per-entry decisions, and build the same page
list (same count, order and dimensions). -/
theorem c10_deterministic (env : Env) (fs0 : FS) (input : RawInput) (out : String)
    (l : List (Option FileEntry)) (r1 r2 : Except MergeError String × FS)
    (t1 t2 : List FileOutcome) (p1 p2 : List Page)
    (_hin : input = RawInput.arr l)
    (h1 : r1 = createSinglePdfFromFiles env fs0 input out)
    (h2 : r2 = createSinglePdfFromFiles env fs0 input out)
    (ht1 : t1 = loopOutcomes env 0 l) (ht2 : t2 = loopOutcomes env 0 l)
    (hp1 : p1 = mergeLoop env 0 l) (hp2 : p2 = mergeLoop env 0 l) :
    r1 = r2 ∧ t1 = t2 ∧ p1 = p2 :=
  ⟨h1.trans h2.symm, ht1.trans ht2.symm, hp1.trans hp2.symm⟩

/-- Witness for C10 at a concrete input: two runs on [a.png] agree on the
result, the decision trace and the page list. -/
theorem c10_witness :
    createSinglePdfFromFiles env0 ⟨[], []⟩ (.arr [fileA]) "/tmp/x.pdf" =
      createSinglePdfFromFiles env0 ⟨[], []⟩ (.arr [fileA]) "/tmp/x.pdf" ∧
    loopOutcomes env0 0 [fileA] = loopOutcomes env0 0 [fileA] ∧
    mergeLoop env0 0 [fileA] = mergeLoop env0 0 [fileA] :=
  c10_deterministic env0 ⟨[], []⟩ (.arr [fileA]) "/tmp/x.pdf" [fileA]
    _ _ _ _ _ _ rfl rfl rfl rfl rfl rfl rfl

end PdfMerge
